import Mathlib

/-!
Shallow embedding of the play2win data-aggregation pipeline
(`src/app/api/comprehensive-data.js`): the CSV loader `parseCSV` and the
aggregation engine `processComprehensiveData`, together with proofs of the
specification claims about them.

JavaScript numbers are modelled by `ℚ` (the pipeline only adds, divides and
compares decimal literals); machine floats' rounding plays no role in any
claim, and `NaN`-freedom of the original corresponds to totality of the
`ℚ`-valued definitions here.  JavaScript strings are `String`; a parsed CSV
row (a JS object) is an association list with last-assignment-wins lookup
and `""` for an absent key (in JS the absent-key value `undefined` and the
empty string behave identically at every use site of this pipeline: both are
falsy and both fail every `===` comparison against the fixed markers).
-/

/-- JS truthiness of a string: every string but `""` is truthy. -/
def jsTruthy (s : String) : Bool := s ≠ ""

/-- First-occurrence deduplication with an accumulator of already-seen keys;
`[...new Set(xs)]` in JS keeps the first occurrence of each element, in order. -/
def dedupFirstAux : List String → List String → List String
  | _, [] => []
  | seen, x :: xs =>
    if x ∈ seen then dedupFirstAux seen xs
    else x :: dedupFirstAux (x :: seen) xs

/-- `[...new Set(xs)]`: the distinct elements of `xs` in first-seen order. -/
def dedupFirst (l : List String) : List String := dedupFirstAux [] l

/-- Numeric value of a digit list read in base 10. -/
def digitsVal (cs : List Char) : Nat :=
  cs.foldl (fun acc c => acc * 10 + (c.toNat - '0'.toNat)) 0

/-- Strip one optional leading sign character, returning the sign and the rest. -/
def signSplit : List Char → Int × List Char
  | [] => (1, [])
  | c :: rest =>
    if c = '-' then (-1, rest)
    else if c = '+' then (1, rest)
    else (1, c :: rest)

/-- `parseInt(s)` restricted to radix 10, as an `Option`: skip leading
whitespace, optional sign, then the longest run of digits; `none` models the
`NaN` result when no digit is found. -/
def jsParseInt (s : String) : Option Int :=
  let cs := s.data.dropWhile Char.isWhitespace
  let sc := signSplit cs
  let ds := sc.2.takeWhile Char.isDigit
  if ds = [] then none else some (sc.1 * (digitsVal ds : Int))

/-- `parseInt(s) || 0`: the `NaN` of an unparseable field collapses to 0
(and a parsed 0 stays 0). -/
def jsParseIntD (s : String) : Int := (jsParseInt s).getD 0

/-- `parseFloat(s) || 0`: skip leading whitespace, optional sign, longest
prefix shaped `digits[.digits]` or `.digits`; no digits at all is `NaN`,
which `|| 0` collapses to 0.  Exponent notation does not occur in this
data set and is not modelled. -/
def jsParseFloatD (s : String) : ℚ :=
  let cs := s.data.dropWhile Char.isWhitespace
  let sc := signSplit cs
  let ip := sc.2.takeWhile Char.isDigit
  let r1 := sc.2.dropWhile Char.isDigit
  let fp := match r1 with
    | '.' :: r2 => r2.takeWhile Char.isDigit
    | _ => []
  if ip = [] ∧ fp = [] then 0
  else (sc.1 : ℚ) * ((digitsVal ip : ℚ) + (digitsVal fp : ℚ) / (10 : ℚ) ^ fp.length)

/-- Whitespace-trim of a character list (both ends). -/
def listTrim (cs : List Char) : List Char :=
  ((cs.dropWhile Char.isWhitespace).reverse.dropWhile Char.isWhitespace).reverse

/-- JS `s.trim()`: strip whitespace from both ends. -/
def jsTrim (s : String) : String := ⟨listTrim s.data⟩

/-- Split a character list on a separator character; like JS
`String.prototype.split` with a one-character separator, the result always
has at least one (possibly empty) piece. -/
def splitOnChar (sep : Char) : List Char → List (List Char)
  | [] => [[]]
  | c :: rest =>
    match splitOnChar sep rest with
    | [] => [[]]
    | h :: t => if c = sep then [] :: h :: t else (c :: h) :: t

/-- JS `s.split(sep)` for a one-character separator. -/
def jsSplit (sep : Char) (s : String) : List String :=
  (splitOnChar sep s.data).map (fun cs => ⟨cs⟩)

/-- JS `Number(s)` as used by the comparator `(a, b) => a - b` on game-id
strings: trim, `""` is 0, otherwise the whole remaining string must be shaped
`[sign]digits[.digits]` (with at least one digit) to denote a number.  A
non-numeric string is `NaN` in JS, making the comparator's order unspecified;
the model collapses that junk case to 0 (the sortedness claim assumes numeric
ids, where the two agree). -/
def jsNumberD (s : String) : ℚ :=
  let cs := listTrim s.data
  if cs = [] then 0
  else
    let sc := signSplit cs
    let ip := sc.2.takeWhile Char.isDigit
    match sc.2.dropWhile Char.isDigit with
    | [] => if ip = [] then 0 else (sc.1 : ℚ) * (digitsVal ip : ℚ)
    | '.' :: r2 =>
      let fp := r2.takeWhile Char.isDigit
      if r2.dropWhile Char.isDigit = [] ∧ (ip ≠ [] ∨ fp ≠ []) then
        (sc.1 : ℚ) * ((digitsVal ip : ℚ) + (digitsVal fp : ℚ) / (10 : ℚ) ^ fp.length)
      else 0
    | _ => 0

/-- A parsed CSV row: a JS object built by successive `row[key] = value`
assignments.  Lookup takes the last binding; an absent key reads as `""`. -/
structure RawRecord where
  fields : List (String × String)
deriving DecidableEq

/-- `row[k]`: last-assignment-wins lookup, `""` when absent. -/
def RawRecord.get (r : RawRecord) (k : String) : String :=
  match r.fields.reverse.find? (fun p => p.1 == k) with
  | some p => p.2
  | none => ""

/-- The row object built from the header and value lists of one CSV line:
`row[header.trim()] = values[index] ? values[index].trim() : ''`. -/
def mkRow (headers values : List String) : RawRecord :=
  ⟨(headers.zip values).map (fun hv => (jsTrim hv.1, jsTrim hv.2))⟩

/-- The data-line loop of `parseCSV`, over the lines after the header
(`i` is the 0-based index of the current line in the file): blank lines are
skipped silently; a line whose comma-split value count differs from the
header's column count is skipped and recorded (second component) as the
diagnostic `(lineNumber, content)` that `console.warn` emits; every other
line becomes one `RawRecord`. -/
def parseCSVAux (headers : List String) : Nat → List String → List RawRecord × List (Nat × String)
  | _, [] => ([], [])
  | i, l :: ls =>
    let rest := parseCSVAux headers (i + 1) ls
    if jsTrim l = "" then rest
    else
      let values := jsSplit ',' l
      if values.length ≠ headers.length then (rest.1, (i + 1, l) :: rest.2)
      else (mkRow headers values :: rest.1, rest.2)

/-- `parseCSV(csvContent)`: split on newlines, line 0 is the header (split on
commas), remaining lines parsed by `parseCSVAux`.  Returns the record list
together with the list of skipped-row diagnostics. -/
def parseCSV (csvContent : String) : List RawRecord × List (Nat × String) :=
  let lines := jsSplit '\n' csvContent
  let headers := jsSplit ',' (lines.headD "")
  parseCSVAux headers 1 lines.tail

/-- A typed play event, one per row of a game
(`gamePlays.map(play => ({...}))` in `processComprehensiveData`).
`shotDistance`'s outer `Option` is the `null` of the falsy-guard
`play['Shot Distance'] ? parseInt(...) : null`; the inner `Option` is the
un-defaulted `parseInt`'s possible `NaN`. -/
structure Play where
  minute : Int
  playType : String
  shotAttempt : String
  shotDistance : Option (Option Int)
  shotOutcome : String
  xG : ℚ
  playContext : String
  location : String
  outcome : String
  success : Bool
  winImpact : Int
  assistType : String
  phaseOfMatch : String
deriving DecidableEq

/-- A materialized game. -/
structure Game where
  gameId : String
  opponent : String
  date : String
  season : String
  plays : List Play
deriving DecidableEq

/-- One goals-timeline element. -/
structure TimelineEntry where
  minute : Int
  gameId : String
  opponent : String
  playType : String
  playContext : String
  location : String
  xG : ℚ
  winImpact : Int
deriving DecidableEq

/-- One shot-map bucket. -/
structure ShotMapEntry where
  totalShots : Nat
  goals : Nat
  avgXG : ℚ
  successRate : ℚ
deriving DecidableEq

/-- One play-type bucket. -/
structure PlayTypeEntry where
  count : Nat
  shots : Nat
  goals : Nat
  avgXG : ℚ
deriving DecidableEq

/-- One team-comparison bucket. -/
structure TeamEntry where
  gamesPlayed : Nat
  totalGoals : Nat
  totalShots : Nat
  totalXG : ℚ
  conversionRate : ℚ
  avgXGPerShot : ℚ
deriving DecidableEq

/-- The key-statistics record. -/
structure KeyStats where
  totalGames : Nat
  totalGoals : Nat
  totalShots : Nat
  totalXG : ℚ
  overallConversionRate : ℚ
  avgXGPerShot : ℚ
deriving DecidableEq

/-- The composite result object. -/
structure AnalysisResult where
  goalsTimeline : List TimelineEntry
  shotMapData : List (String × ShotMapEntry)
  playTypeData : List (String × PlayTypeEntry)
  teamComparison : List (String × TeamEntry)
  keyStats : KeyStats
  games : List Game
  opponents : List String
deriving DecidableEq

/-- `gamePlays.map(play => ({...}))`'s element conversion. -/
def toPlay (r : RawRecord) : Play where
  minute := jsParseIntD (r.get "Minute")
  playType := r.get "Play Type"
  shotAttempt := r.get "Shot Attempt"
  shotDistance :=
    if jsTruthy (r.get "Shot Distance") then some (jsParseInt (r.get "Shot Distance")) else none
  shotOutcome := r.get "Shot Outcome"
  xG := jsParseFloatD (r.get "xG")
  playContext := r.get "Play Context"
  location := r.get "Location on Field"
  outcome := r.get "Outcome"
  success := r.get "Success" == "Yes"
  winImpact := jsParseIntD (r.get "Win Impact")
  assistType := r.get "Assist Type"
  phaseOfMatch := r.get "Phase of Match"

/-- `[...new Set(data.map(row => row['Game ID']))].sort((a, b) => a - b)`:
the distinct game ids, sorted by the JS numeric coercion of the id strings. -/
def gamesList (data : List RawRecord) : List String :=
  List.insertionSort (fun a b => jsNumberD a ≤ jsNumberD b)
    (dedupFirst (data.map (fun r => r.get "Game ID")))

/-- `[...new Set(data.map(row => row['Opponent']))].filter(opp => opp)`:
distinct opponent names in first-seen order, empty name removed. -/
def opponentsList (data : List RawRecord) : List String :=
  (dedupFirst (data.map (fun r => r.get "Opponent"))).filter (fun o => jsTruthy o)

/-- The body of `games.map(gameId => ...)`: materialize one game, or `none`
for either skip branch (no plays found, or a required field of the first
play missing). -/
def toGame (data : List RawRecord) (gameId : String) : Option Game :=
  let gamePlays := data.filter (fun r => r.get "Game ID" == gameId)
  match gamePlays.head? with
  | none => none
  | some firstPlay =>
    if ¬ jsTruthy (firstPlay.get "Opponent") ∨ ¬ jsTruthy (firstPlay.get "Date")
        ∨ ¬ jsTruthy (firstPlay.get "Season") then none
    else some
      { gameId := gameId
        opponent := firstPlay.get "Opponent"
        date := firstPlay.get "Date"
        season := firstPlay.get "Season"
        plays := gamePlays.map toPlay }

/-- `games.map(...).filter(game => game !== null)`: the materialized games. -/
def gameData (data : List RawRecord) : List Game :=
  (gamesList data).filterMap (toGame data)

/-- Goals Timeline: all plays with `shotOutcome === 'Goal'`, in game order
then play order, annotated with the owning game's id and opponent. -/
def goalsTimeline (data : List RawRecord) : List TimelineEntry :=
  (gameData data).flatMap (fun game =>
    (game.plays.filter (fun p => p.shotOutcome == "Goal")).map (fun goal =>
      { minute := goal.minute
        gameId := game.gameId
        opponent := game.opponent
        playType := goal.playType
        playContext := goal.playContext
        location := goal.location
        xG := goal.xG
        winImpact := goal.winImpact }))

/-- `[...new Set(data.map(row => row['Location on Field']))].filter(loc => loc)`. -/
def locationsList (data : List RawRecord) : List String :=
  (dedupFirst (data.map (fun r => r.get "Location on Field"))).filter (fun l => jsTruthy l)

/-- `data.filter(row => row['Location on Field'] === location && row['Shot Attempt'] === 'Yes')`. -/
def shotGroup (data : List RawRecord) (location : String) : List RawRecord :=
  data.filter (fun r => r.get "Location on Field" == location && r.get "Shot Attempt" == "Yes")

/-- The shot-map bucket of one location.  `avgXG`'s `reduce(...)/len || 0`
yields `NaN || 0 = 0` on an empty group; `successRate` is guarded by an
explicit ternary. -/
def shotMapEntry (data : List RawRecord) (location : String) : ShotMapEntry :=
  let g := shotGroup data location
  { totalShots := g.length
    goals := (g.filter (fun r => r.get "Shot Outcome" == "Goal")).length
    avgXG :=
      if g.length = 0 then 0
      else (g.map (fun r => jsParseFloatD (r.get "xG"))).sum / (g.length : ℚ)
    successRate :=
      if 0 < g.length then
        ((g.filter (fun r => r.get "Shot Outcome" == "Goal")).length : ℚ) / (g.length : ℚ) * 100
      else 0 }

/-- Shot Map: one bucket per distinct non-empty location among all rows. -/
def shotMapData (data : List RawRecord) : List (String × ShotMapEntry) :=
  (locationsList data).map (fun location => (location, shotMapEntry data location))

/-- `[...new Set(data.map(row => row['Play Type']))].filter(type => type)`. -/
def playTypesList (data : List RawRecord) : List String :=
  (dedupFirst (data.map (fun r => r.get "Play Type"))).filter (fun t => jsTruthy t)

/-- The play-type bucket of one play type. -/
def playTypeEntry (data : List RawRecord) (playType : String) : PlayTypeEntry :=
  let g := data.filter (fun r => r.get "Play Type" == playType)
  { count := g.length
    shots := (g.filter (fun r => r.get "Shot Attempt" == "Yes")).length
    goals := (g.filter (fun r => r.get "Shot Outcome" == "Goal")).length
    avgXG :=
      if g.length = 0 then 0
      else (g.map (fun r => jsParseFloatD (r.get "xG"))).sum / (g.length : ℚ) }

/-- Play Type Distribution. -/
def playTypeData (data : List RawRecord) : List (String × PlayTypeEntry) :=
  (playTypesList data).map (fun t => (t, playTypeEntry data t))

/-- The team-comparison bucket of one opponent: fold over the flattened plays
of that opponent's materialized games, ratios guarded by explicit ternaries. -/
def teamEntry (data : List RawRecord) (opponent : String) : TeamEntry :=
  let opponentGames := (gameData data).filter (fun g => g.opponent == opponent)
  let allPlays := opponentGames.flatMap (fun g => g.plays)
  let shots := (allPlays.filter (fun p => p.shotAttempt == "Yes")).length
  let goals := (allPlays.filter (fun p => p.shotOutcome == "Goal")).length
  let xg := (allPlays.map (fun p => p.xG)).sum
  { gamesPlayed := opponentGames.length
    totalGoals := goals
    totalShots := shots
    totalXG := xg
    conversionRate := if 0 < shots then (goals : ℚ) / (shots : ℚ) * 100 else 0
    avgXGPerShot := if 0 < shots then xg / (shots : ℚ) else 0 }

/-- Team Comparison: one bucket per element of `opponents`. -/
def teamComparison (data : List RawRecord) : List (String × TeamEntry) :=
  (opponentsList data).map (fun o => (o, teamEntry data o))

/-- Key Statistics: the same fold over the whole raw record set;
`totalGames` counts the distinct-id list, not the materialized games. -/
def keyStats (data : List RawRecord) : KeyStats :=
  let shots := (data.filter (fun r => r.get "Shot Attempt" == "Yes")).length
  let goals := (data.filter (fun r => r.get "Shot Outcome" == "Goal")).length
  let xg := (data.map (fun r => jsParseFloatD (r.get "xG"))).sum
  { totalGames := (gamesList data).length
    totalGoals := goals
    totalShots := shots
    totalXG := xg
    overallConversionRate := if 0 < shots then (goals : ℚ) / (shots : ℚ) * 100 else 0
    avgXGPerShot := if 0 < shots then xg / (shots : ℚ) else 0 }

/-- `processComprehensiveData(data)`: assemble the five views, the
materialized games and the opponent list. -/
def processComprehensiveData (data : List RawRecord) : AnalysisResult where
  goalsTimeline := goalsTimeline data
  shotMapData := shotMapData data
  playTypeData := playTypeData data
  teamComparison := teamComparison data
  keyStats := keyStats data
  games := gameData data
  opponents := opponentsList data

/-! ### Basic lemmas about the JS-collection models -/

theorem mem_dedupFirstAux {x : String} :
    ∀ (l seen : List String), x ∈ dedupFirstAux seen l ↔ x ∈ l ∧ x ∉ seen
  | [], seen => by simp [dedupFirstAux]
  | y :: ys, seen => by
    by_cases hy : y ∈ seen
    · rw [dedupFirstAux, if_pos hy, mem_dedupFirstAux ys seen]
      constructor
      · rintro ⟨h1, h2⟩; exact ⟨List.mem_cons_of_mem _ h1, h2⟩
      · rintro ⟨h1, h2⟩
        rcases List.mem_cons.mp h1 with h | h
        · exact absurd (h ▸ hy) h2
        · exact ⟨h, h2⟩
    · rw [dedupFirstAux, if_neg hy]
      by_cases hxy : x = y
      · subst hxy; simp [hy]
      · rw [List.mem_cons, mem_dedupFirstAux ys (y :: seen)]
        simp [hxy, hy]

theorem nodup_dedupFirstAux : ∀ (l seen : List String), (dedupFirstAux seen l).Nodup
  | [], _ => List.nodup_nil
  | y :: ys, seen => by
    by_cases hy : y ∈ seen
    · rw [dedupFirstAux, if_pos hy]; exact nodup_dedupFirstAux ys seen
    · rw [dedupFirstAux, if_neg hy]
      refine List.Nodup.cons ?_ (nodup_dedupFirstAux ys (y :: seen))
      intro hmem
      exact ((mem_dedupFirstAux ys (y :: seen)).mp hmem).2 (List.mem_cons_self y seen)

theorem mem_dedupFirst {x : String} {l : List String} : x ∈ dedupFirst l ↔ x ∈ l := by
  rw [dedupFirst, mem_dedupFirstAux]; simp

theorem nodup_dedupFirst {l : List String} : (dedupFirst l).Nodup :=
  nodup_dedupFirstAux l []

theorem mem_gamesList {data : List RawRecord} {gid : String} :
    gid ∈ gamesList data ↔ gid ∈ data.map (fun r => r.get "Game ID") := by
  rw [gamesList, (List.perm_insertionSort _ _).mem_iff, mem_dedupFirst]

theorem nodup_gamesList {data : List RawRecord} : (gamesList data).Nodup :=
  ((List.perm_insertionSort _ _).nodup_iff).mpr nodup_dedupFirst

theorem mem_opponentsList {data : List RawRecord} {o : String} :
    o ∈ opponentsList data ↔ o ∈ data.map (fun r => r.get "Opponent") ∧ o ≠ "" := by
  rw [opponentsList, List.mem_filter, mem_dedupFirst, jsTruthy]
  simp

theorem nodup_opponentsList {data : List RawRecord} : (opponentsList data).Nodup :=
  List.Nodup.filter _ nodup_dedupFirst

/-! ### Sum-partition helpers -/

theorem sum_map_one {A : Type} : ∀ l : List A, (l.map (fun _ => 1)).sum = l.length
  | [] => rfl
  | _ :: l => by simp [sum_map_one l]; omega

theorem sum_map_filter_split {A : Type} (p : A → Bool) (f : A → Nat) :
    ∀ items : List A,
      ((items.filter p).map f).sum + ((items.filter (fun a => !p a)).map f).sum
        = (items.map f).sum
  | [] => rfl
  | a :: l => by
    have ih := sum_map_filter_split p f l
    by_cases h : p a <;> simp [List.filter_cons, h] <;> omega

/-- Partitioning a sum by a duplicate-free key list that covers every item:
summing `f` bucket by bucket equals summing `f` over all items. -/
theorem sum_map_filter_key {K A : Type} [BEq K] [LawfulBEq K] (keyOf : A → K) (f : A → Nat) :
    ∀ (keys : List K) (items : List A), keys.Nodup →
      (∀ a ∈ items, keyOf a ∈ keys) →
      (keys.map (fun k => ((items.filter (fun a => keyOf a == k)).map f).sum)).sum
        = (items.map f).sum
  | [], items, _, hall => by
    have : items = [] := by
      cases items with
      | nil => rfl
      | cons a l => exact absurd (hall a (List.mem_cons_self a l)) (by simp)
    simp [this]
  | k :: ks, items, hnd, hall => by
    have hk : k ∉ ks := (List.nodup_cons.mp hnd).1
    have hsplit := sum_map_filter_split (fun a => keyOf a == k) f items
    have hkeep : ∀ k' ∈ ks,
        items.filter (fun a => keyOf a == k')
          = (items.filter (fun a => !(keyOf a == k))).filter (fun a => keyOf a == k') := by
      intro k' hk'
      rw [List.filter_filter]
      refine (List.filter_congr ?_)
      intro a _
      cases hb : keyOf a == k' with
      | false => simp
      | true =>
        have : keyOf a = k' := eq_of_beq hb
        have hne : ¬ (keyOf a == k) = true := by
          simp [this]
          intro heq
          exact hk (heq ▸ hk')
        simp [hne]
    have hall' : ∀ a ∈ items.filter (fun a => !(keyOf a == k)), keyOf a ∈ ks := by
      intro a ha
      rcases List.mem_filter.mp ha with ⟨hmem, hcond⟩
      rcases List.mem_cons.mp (hall a hmem) with h | h
      · exfalso
        rw [h] at hcond
        simp at hcond
      · exact h
    have hIH := sum_map_filter_key keyOf f ks (items.filter (fun a => !(keyOf a == k)))
      (List.nodup_cons.mp hnd).2 hall'
    have hmap : ks.map (fun k' => ((items.filter (fun a => keyOf a == k')).map f).sum)
        = ks.map (fun k' =>
            (((items.filter (fun a => !(keyOf a == k))).filter
                (fun a => keyOf a == k')).map f).sum) :=
      List.map_congr_left (fun k' hk' =>
        congrArg (fun l => (List.map f l).sum) (hkeep k' hk'))
    rw [List.map_cons, List.sum_cons, hmap, hIH, hsplit]

/-- The count form of `sum_map_filter_key`. -/
theorem length_filter_key {K A : Type} [BEq K] [LawfulBEq K] (keyOf : A → K)
    (keys : List K) (items : List A) (hnd : keys.Nodup)
    (hall : ∀ a ∈ items, keyOf a ∈ keys) :
    (keys.map (fun k => (items.filter (fun a => keyOf a == k)).length)).sum = items.length := by
  have h := sum_map_filter_key keyOf (fun _ => 1) keys items hnd hall
  rw [sum_map_one] at h
  rw [← h]
  exact congrArg List.sum (List.map_congr_left (fun k _ => by rw [sum_map_one]))

theorem mem_locationsList {data : List RawRecord} {loc : String} :
    loc ∈ locationsList data
      ↔ loc ∈ data.map (fun r => r.get "Location on Field") ∧ loc ≠ "" := by
  rw [locationsList, List.mem_filter, mem_dedupFirst, jsTruthy]
  simp

theorem mem_shotMapData {data : List RawRecord} {loc : String} {e : ShotMapEntry} :
    (loc, e) ∈ shotMapData data ↔ loc ∈ locationsList data ∧ e = shotMapEntry data loc := by
  constructor
  · intro h
    rcases List.mem_map.mp h with ⟨l', hl', heq⟩
    have h1 : l' = loc := congrArg Prod.fst heq
    have h2 : shotMapEntry data l' = e := congrArg Prod.snd heq
    subst h1
    exact ⟨hl', h2.symm⟩
  · rintro ⟨h1, h2⟩
    subst h2
    exact List.mem_map_of_mem _ h1

theorem mem_playTypeData {data : List RawRecord} {t : String} {e : PlayTypeEntry} :
    (t, e) ∈ playTypeData data ↔ t ∈ playTypesList data ∧ e = playTypeEntry data t := by
  constructor
  · intro h
    rcases List.mem_map.mp h with ⟨t', ht', heq⟩
    have h1 : t' = t := congrArg Prod.fst heq
    have h2 : playTypeEntry data t' = e := congrArg Prod.snd heq
    subst h1
    exact ⟨ht', h2.symm⟩
  · rintro ⟨h1, h2⟩
    subst h2
    exact List.mem_map_of_mem _ h1

theorem mem_teamComparison {data : List RawRecord} {o : String} {e : TeamEntry} :
    (o, e) ∈ teamComparison data ↔ o ∈ opponentsList data ∧ e = teamEntry data o := by
  constructor
  · intro h
    rcases List.mem_map.mp h with ⟨o', ho', heq⟩
    have h1 : o' = o := congrArg Prod.fst heq
    have h2 : teamEntry data o' = e := congrArg Prod.snd heq
    subst h1
    exact ⟨ho', h2.symm⟩
  · rintro ⟨h1, h2⟩
    subst h2
    exact List.mem_map_of_mem _ h1

theorem toGame_eq_some_iff {data : List RawRecord} {gid : String} {g : Game} :
    toGame data gid = some g ↔
      ∃ first, (data.filter (fun r => r.get "Game ID" == gid)).head? = some first ∧
        first.get "Opponent" ≠ "" ∧ first.get "Date" ≠ "" ∧ first.get "Season" ≠ "" ∧
        g = { gameId := gid
              opponent := first.get "Opponent"
              date := first.get "Date"
              season := first.get "Season"
              plays := (data.filter (fun r => r.get "Game ID" == gid)).map toPlay } := by
  unfold toGame
  dsimp only
  split
  case _ heq => simp [heq]
  case _ firstPlay heq =>
    simp only [heq, Option.some.injEq, jsTruthy]
    split_ifs with hcond
    · simp only [decide_eq_true_eq, not_not] at hcond
      constructor
      · intro h
        exact absurd h (by simp)
      · rintro ⟨first, hfi, hne1, hne2, hne3, _⟩
        rw [← hfi] at hne1 hne2 hne3
        rcases hcond with h | h | h
        · exact absurd h hne1
        · exact absurd h hne2
        · exact absurd h hne3
    · push_neg at hcond
      simp only [decide_eq_true_eq, not_not] at hcond
      constructor
      · intro h
        exact ⟨firstPlay, rfl, hcond.1, hcond.2.1, hcond.2.2,
          (Option.some.injEq _ _ ▸ h).symm⟩
      · rintro ⟨first, hfi, _, _, _, hg⟩
        rw [hg, ← hfi]

theorem toGame_gameId {data : List RawRecord} {gid : String} {g : Game}
    (h : toGame data gid = some g) : g.gameId = gid := by
  rcases toGame_eq_some_iff.mp h with ⟨first, _, _, _, _, hg⟩
  rw [hg]

theorem mem_gameData {data : List RawRecord} {g : Game} :
    g ∈ gameData data ↔ g.gameId ∈ gamesList data ∧ toGame data g.gameId = some g := by
  rw [gameData, List.mem_filterMap]
  constructor
  · rintro ⟨k, hk, hsome⟩
    have hid := toGame_gameId hsome
    exact ⟨hid ▸ hk, hid ▸ hsome⟩
  · rintro ⟨h1, h2⟩
    exact ⟨g.gameId, h1, h2⟩

theorem map_gameId_gameData_sublist (data : List RawRecord) :
    ((gameData data).map (fun g => g.gameId)).Sublist (gamesList data) := by
  rw [gameData]
  induction gamesList data with
  | nil => simp
  | cons k ks ih =>
    cases hk : toGame data k with
    | none =>
      rw [List.filterMap_cons, hk]
      exact ih.cons k
    | some g =>
      rw [List.filterMap_cons, hk, List.map_cons, toGame_gameId hk]
      exact ih.cons₂ k

theorem nodup_map_gameId_gameData (data : List RawRecord) :
    ((gameData data).map (fun g => g.gameId)).Nodup :=
  List.Nodup.sublist (map_gameId_gameData_sublist data) nodup_gamesList

/-! ### The loader's record/skip characterization -/

theorem parseCSVAux_eq (headers : List String) :
    ∀ (i : Nat) (ls : List String),
      (parseCSVAux headers i ls).1
          = (ls.filter (fun l =>
              !(jsTrim l == "") && ((jsSplit ',' l).length == headers.length))).map
              (fun l => mkRow headers (jsSplit ',' l)) ∧
      (parseCSVAux headers i ls).2
          = ((List.enumFrom i ls).filter (fun p =>
              !(jsTrim p.2 == "") && !((jsSplit ',' p.2).length == headers.length))).map
              (fun p => (p.1 + 1, p.2))
  | _, [] => by simp [parseCSVAux]
  | i, l :: ls => by
    have ih := parseCSVAux_eq headers (i + 1) ls
    by_cases hb : jsTrim l = ""
    · simp only [parseCSVAux, hb, if_pos rfl, List.enumFrom_cons, List.filter_cons]
      simp [hb, ih.1, ih.2]
    · by_cases hc : (jsSplit ',' l).length = headers.length
      · simp only [parseCSVAux, List.enumFrom_cons, List.filter_cons]
        simp [hb, hc, ih.1, ih.2]
      · simp only [parseCSVAux, List.enumFrom_cons, List.filter_cons]
        simp [hb, hc, ih.1, ih.2]

theorem parseCSVAux_blank (headers : List String) :
    ∀ (i : Nat) (ls : List String), (∀ l ∈ ls, jsTrim l = "") →
      parseCSVAux headers i ls = ([], [])
  | _, [], _ => rfl
  | i, l :: ls, h => by
    have hb : jsTrim l = "" := h l (List.mem_cons_self l ls)
    rw [parseCSVAux, if_pos hb]
    exact parseCSVAux_blank headers (i + 1) ls (fun x hx => h x (List.mem_cons_of_mem l hx))

/-! ### More list and character helpers -/

theorem length_filter_flatMap {A B : Type} (f : A → List B) (p : B → Bool) :
    ∀ l : List A,
      ((l.flatMap f).filter p).length = (l.map (fun a => ((f a).filter p).length)).sum
  | [] => rfl
  | a :: l => by
    rw [List.flatMap_cons, List.filter_append, List.length_append, List.map_cons,
      List.sum_cons, length_filter_flatMap f p l]

theorem nodup_locationsList {data : List RawRecord} : (locationsList data).Nodup :=
  List.Nodup.filter _ nodup_dedupFirst

theorem takeWhile_eq_self_of_all {p : Char → Bool} :
    ∀ {l : List Char}, (∀ c ∈ l, p c = true) → l.takeWhile p = l
  | [], _ => rfl
  | c :: cs, h => by
    rw [List.takeWhile_cons, h c (List.mem_cons_self c cs), if_pos rfl]
    exact congrArg (c :: ·) (takeWhile_eq_self_of_all (fun x hx => h x (List.mem_cons_of_mem c hx)))

theorem dropWhile_eq_nil_of_all {p : Char → Bool} :
    ∀ {l : List Char}, (∀ c ∈ l, p c = true) → l.dropWhile p = []
  | [], _ => rfl
  | c :: cs, h => by
    rw [List.dropWhile_cons, h c (List.mem_cons_self c cs), if_pos rfl]
    exact dropWhile_eq_nil_of_all (fun x hx => h x (List.mem_cons_of_mem c hx))

theorem dropWhile_eq_self_of_none {p : Char → Bool} :
    ∀ {l : List Char}, (∀ c ∈ l, p c = false) → l.dropWhile p = l
  | [], _ => rfl
  | c :: cs, h => by
    rw [List.dropWhile_cons, h c (List.mem_cons_self c cs)]
    simp

theorem digit_not_ws {c : Char} (h : c.isDigit = true) : c.isWhitespace = false := by
  by_contra hw
  rw [Bool.not_eq_false] at hw
  simp only [Char.isWhitespace, Bool.or_eq_true, decide_eq_true_eq] at hw
  rcases hw with ((hc | hc) | hc) | hc <;> rw [hc] at h <;> exact absurd h (by decide)

theorem digit_ne_dash {c : Char} (h : c.isDigit = true) : c ≠ '-' := by
  intro hc
  rw [hc] at h
  exact absurd h (by decide)

theorem digit_ne_plus {c : Char} (h : c.isDigit = true) : c ≠ '+' := by
  intro hc
  rw [hc] at h
  exact absurd h (by decide)

theorem signSplit_of_ne {c : Char} {cs : List Char} (h1 : c ≠ '-') (h2 : c ≠ '+') :
    signSplit (c :: cs) = (1, c :: cs) := by
  rw [signSplit, if_neg h1, if_neg h2]

/-- A non-empty all-digit identifier string: the numeric-id hypothesis of the
sorting claim. -/
def isDigitString (s : String) : Prop := s.data ≠ [] ∧ ∀ c ∈ s.data, c.isDigit = true

instance (s : String) : Decidable (isDigitString s) := by
  unfold isDigitString
  exact inferInstance

/-- The number an all-digit identifier string denotes. -/
def strNumVal (s : String) : Nat := digitsVal s.data

theorem jsNumberD_of_digits {s : String} (h : isDigitString s) :
    jsNumberD s = (strNumVal s : ℚ) := by
  obtain ⟨hne, hdig⟩ := h
  have hws : ∀ c ∈ s.data, c.isWhitespace = false := fun c hc => digit_not_ws (hdig c hc)
  have htrim : listTrim s.data = s.data := by
    unfold listTrim
    rw [dropWhile_eq_self_of_none hws,
      dropWhile_eq_self_of_none (fun c hc => hws c (List.mem_reverse.mp hc)),
      List.reverse_reverse]
  rcases List.exists_cons_of_ne_nil hne with ⟨c, cs', hcons⟩
  have hc : c.isDigit = true := hdig c (by rw [hcons]; exact List.mem_cons_self c cs')
  have hsign : signSplit s.data = (1, s.data) := by
    rw [hcons, signSplit_of_ne (digit_ne_dash hc) (digit_ne_plus hc)]
  unfold jsNumberD
  rw [htrim, if_neg hne, hsign]
  dsimp only
  rw [takeWhile_eq_self_of_all hdig, dropWhile_eq_nil_of_all hdig]
  rw [if_neg hne]
  simp [strNumVal]

instance : IsTotal String (fun a b => jsNumberD a ≤ jsNumberD b) :=
  ⟨fun a b => le_total (jsNumberD a) (jsNumberD b)⟩

instance : IsTrans String (fun a b => jsNumberD a ≤ jsNumberD b) :=
  ⟨fun _ _ _ hab hbc => le_trans hab hbc⟩

/-- Number of goal plays of one materialized game. -/
def goalsOfGame (g : Game) : Nat :=
  (g.plays.filter (fun p => p.shotOutcome == "Goal")).length

theorem opponent_mem_opponentsList {data : List RawRecord} {g : Game}
    (hg : g ∈ gameData data) : g.opponent ∈ opponentsList data := by
  rcases mem_gameData.mp hg with ⟨_, hsome⟩
  rcases toGame_eq_some_iff.mp hsome with ⟨first, hf, h1, _, _, hgeq⟩
  have hfirst : first ∈ data := by
    have hmemf : first ∈ data.filter (fun r => r.get "Game ID" == g.gameId) :=
      List.mem_of_mem_head? (by rw [hf]; exact Option.mem_some_iff.mpr rfl)
    exact (List.mem_filter.mp hmemf).1
  refine mem_opponentsList.mpr ⟨?_, ?_⟩
  · rw [hgeq]
    exact List.mem_map_of_mem (fun r => r.get "Opponent") hfirst
  · rw [hgeq]
    exact h1

theorem goalsOfGame_eq_rowCount {data : List RawRecord} {g : Game}
    (hg : g ∈ gameData data) :
    goalsOfGame g
      = ((data.filter (fun r => r.get "Shot Outcome" == "Goal")).filter
          (fun r => r.get "Game ID" == g.gameId)).length := by
  rcases mem_gameData.mp hg with ⟨_, hsome⟩
  rcases toGame_eq_some_iff.mp hsome with ⟨first, _, _, _, _, hgeq⟩
  have hplays : g.plays = (data.filter (fun r => r.get "Game ID" == g.gameId)).map toPlay := by
    rw [hgeq]
  rw [goalsOfGame, hplays, List.filter_map, List.length_map, List.filter_filter,
    List.filter_filter]
  exact congrArg List.length (List.filter_congr (fun r _ => by
    show ((toPlay r).shotOutcome == "Goal" && r.get "Game ID" == g.gameId)
        = (r.get "Game ID" == g.gameId && r.get "Shot Outcome" == "Goal")
    exact Bool.and_comm _ _))

/-! ### Concrete inputs used by witnesses and counterexamples -/

/-- The spec's worked example, row 1: an attempted shot from the box that
scored. -/
def exRow1 : RawRecord :=
  ⟨[("Game ID", "1"), ("Opponent", "A"), ("Date", "2024-01-01"), ("Season", "2024"),
    ("Minute", "10"), ("Play Type", "Cross"), ("Shot Attempt", "Yes"),
    ("Shot Outcome", "Goal"), ("xG", "0.3"), ("Location on Field", "Box"),
    ("Success", "Yes")]⟩

/-- The spec's worked example, row 2: an attempted shot from the box that
missed. -/
def exRow2 : RawRecord :=
  ⟨[("Game ID", "1"), ("Opponent", "A"), ("Date", "2024-01-01"), ("Season", "2024"),
    ("Minute", "20"), ("Play Type", "Cross"), ("Shot Attempt", "Yes"),
    ("Shot Outcome", "Miss"), ("xG", "0.1"), ("Location on Field", "Box"),
    ("Success", "No")]⟩

/-- The spec's worked example data set. -/
def exData : List RawRecord := [exRow1, exRow2]

/-- One row whose location is only ever seen without a shot attempt. -/
def noShotRow : RawRecord :=
  ⟨[("Game ID", "1"), ("Opponent", "A"), ("Date", "2024-01-01"), ("Season", "2024"),
    ("Shot Attempt", "No"), ("Location on Field", "Box")]⟩

/-- A data set whose single location never hosts an attempted shot. -/
def noShotData : List RawRecord := [noShotRow]

/-- One row naming an opponent but with blank Date and Season, so its game is
dropped at materialization. -/
def droppedGameRow : RawRecord := ⟨[("Game ID", "1"), ("Opponent", "B")]⟩

/-- A data set whose only game is dropped for missing required fields. -/
def droppedGameData : List RawRecord := [droppedGameRow]

/-- Rows with game ids "10" and "9", in that source order. -/
def twoIdsData : List RawRecord :=
  [⟨[("Game ID", "10"), ("Opponent", "A"), ("Date", "d"), ("Season", "s")]⟩,
   ⟨[("Game ID", "9"), ("Opponent", "A"), ("Date", "d"), ("Season", "s")]⟩]

/-! ### Field-level unfoldings of the bucket records -/

theorem shotMapEntry_totalShots (data : List RawRecord) (loc : String) :
    (shotMapEntry data loc).totalShots = (shotGroup data loc).length := rfl

theorem shotMapEntry_goals (data : List RawRecord) (loc : String) :
    (shotMapEntry data loc).goals
      = ((shotGroup data loc).filter (fun r => r.get "Shot Outcome" == "Goal")).length := rfl

theorem shotMapEntry_avgXG (data : List RawRecord) (loc : String) :
    (shotMapEntry data loc).avgXG
      = if (shotMapEntry data loc).totalShots = 0 then 0
        else ((shotGroup data loc).map (fun r => jsParseFloatD (r.get "xG"))).sum
              / ((shotMapEntry data loc).totalShots : ℚ) := rfl

theorem shotMapEntry_successRate (data : List RawRecord) (loc : String) :
    (shotMapEntry data loc).successRate
      = if 0 < (shotMapEntry data loc).totalShots then
          ((shotMapEntry data loc).goals : ℚ) / ((shotMapEntry data loc).totalShots : ℚ) * 100
        else 0 := rfl

theorem playTypeEntry_avgXG (data : List RawRecord) (t : String) :
    (playTypeEntry data t).avgXG
      = if (playTypeEntry data t).count = 0 then 0
        else ((data.filter (fun r => r.get "Play Type" == t)).map
              (fun r => jsParseFloatD (r.get "xG"))).sum / ((playTypeEntry data t).count : ℚ) := rfl

theorem teamEntry_conversionRate (data : List RawRecord) (o : String) :
    (teamEntry data o).conversionRate
      = if 0 < (teamEntry data o).totalShots then
          ((teamEntry data o).totalGoals : ℚ) / ((teamEntry data o).totalShots : ℚ) * 100
        else 0 := rfl

theorem teamEntry_avgXGPerShot (data : List RawRecord) (o : String) :
    (teamEntry data o).avgXGPerShot
      = if 0 < (teamEntry data o).totalShots then
          (teamEntry data o).totalXG / ((teamEntry data o).totalShots : ℚ)
        else 0 := rfl

theorem keyStats_overallConversionRate (data : List RawRecord) :
    (keyStats data).overallConversionRate
      = if 0 < (keyStats data).totalShots then
          ((keyStats data).totalGoals : ℚ) / ((keyStats data).totalShots : ℚ) * 100
        else 0 := rfl

theorem keyStats_avgXGPerShot (data : List RawRecord) :
    (keyStats data).avgXGPerShot
      = if 0 < (keyStats data).totalShots then
          (keyStats data).totalXG / ((keyStats data).totalShots : ℚ)
        else 0 := rfl

/-! ### The claims -/

/-- C1, counterexample: the Shot Map keys are NOT restricted to locations of
attempted shots.  In `noShotData` no row has `Shot Attempt = "Yes"`, yet the
Shot Map still carries an entry for "Box" (with every count zero), because the
code collects locations from all rows before filtering by shot attempt. -/
theorem shotMap_unattempted_location_entry :
    (∀ r ∈ noShotData, ¬ r.get "Shot Attempt" = "Yes") ∧
    ("Box", shotMapEntry noShotData "Box") ∈ (processComprehensiveData noShotData).shotMapData ∧
    shotMapEntry noShotData "Box" = ⟨0, 0, 0, 0⟩ := by
  decide

/-- C1, amended: the Shot Map has exactly one entry per distinct non-empty
location observed among ALL rows (its key list is duplicate-free and a
location is a key iff it is non-empty and occurs in some row, whether or not
that row attempted a shot); a location that occurs only in rows without an
attempted shot still receives an entry, with all four fields zero. -/
theorem shotMap_keys_are_all_locations (data : List RawRecord) :
    ((processComprehensiveData data).shotMapData.map Prod.fst).Nodup ∧
    (∀ loc, loc ∈ (processComprehensiveData data).shotMapData.map Prod.fst ↔
      (loc ≠ "" ∧ loc ∈ data.map (fun r => r.get "Location on Field"))) ∧
    (∀ loc, (∀ r ∈ data, ¬(r.get "Location on Field" = loc ∧ r.get "Shot Attempt" = "Yes")) →
      shotMapEntry data loc = ⟨0, 0, 0, 0⟩) := by
  have hkeys : (processComprehensiveData data).shotMapData.map Prod.fst = locationsList data := by
    show (shotMapData data).map Prod.fst = locationsList data
    rw [shotMapData, List.map_map]
    simp [Function.comp_def]
  refine ⟨?_, ?_, ?_⟩
  · rw [hkeys]
    exact nodup_locationsList
  · intro loc
    rw [hkeys]
    exact mem_locationsList.trans and_comm
  · intro loc h
    have hfil : shotGroup data loc = [] := by
      refine List.filter_eq_nil_iff.mpr (fun r hr => ?_)
      intro hcond
      rw [Bool.and_eq_true] at hcond
      exact h r hr ⟨eq_of_beq hcond.1, eq_of_beq hcond.2⟩
    unfold shotMapEntry
    rw [hfil]
    simp

/-- C1 amended, witness at `noShotData` and location "Box". -/
theorem shotMap_keys_are_all_locations_witness :
    ("Box" ∈ (processComprehensiveData noShotData).shotMapData.map Prod.fst ↔
      ("Box" ≠ "" ∧ "Box" ∈ noShotData.map (fun r => r.get "Location on Field"))) ∧
    shotMapEntry noShotData "Box" = ⟨0, 0, 0, 0⟩ := by
  have h := shotMap_keys_are_all_locations noShotData
  exact ⟨h.2.1 "Box", h.2.2 "Box" (by decide)⟩

/-- C2: every row counted in a Shot Map entry (in `totalShots`, `goals`, and
the `avgXG` numerator) lies in that location's shot group, all of whose rows
have `Shot Attempt = "Yes"`; moreover deleting every row without a shot
attempt from the input leaves every location's Shot Map bucket unchanged, so
such rows never contribute to any Shot Map count. -/
theorem shotMap_counts_only_attempts (data : List RawRecord) :
    (∀ loc e, (loc, e) ∈ (processComprehensiveData data).shotMapData →
      e.totalShots = (shotGroup data loc).length ∧
      e.goals = ((shotGroup data loc).filter (fun r => r.get "Shot Outcome" == "Goal")).length ∧
      ∀ r ∈ shotGroup data loc, r.get "Shot Attempt" = "Yes") ∧
    (∀ loc, shotMapEntry (data.filter (fun r => r.get "Shot Attempt" == "Yes")) loc
        = shotMapEntry data loc) := by
  constructor
  · intro loc e hmem
    have he : e = shotMapEntry data loc := (mem_shotMapData.mp hmem).2
    subst he
    refine ⟨rfl, rfl, ?_⟩
    intro r hr
    have hcond := (List.mem_filter.mp hr).2
    rw [Bool.and_eq_true] at hcond
    exact eq_of_beq hcond.2
  · intro loc
    have hg : shotGroup (data.filter (fun r => r.get "Shot Attempt" == "Yes")) loc
        = shotGroup data loc := by
      unfold shotGroup
      rw [List.filter_filter]
      exact List.filter_congr (fun r _ => by
        cases h1 : (r.get "Location on Field" == loc) <;>
          cases h2 : (r.get "Shot Attempt" == "Yes") <;> simp [h1, h2])
    unfold shotMapEntry
    rw [hg]

/-- C2 witness at `exData` and location "Box". -/
theorem shotMap_counts_only_attempts_witness :
    (shotMapEntry exData "Box").totalShots = (shotGroup exData "Box").length ∧
    ∀ r ∈ shotGroup exData "Box", r.get "Shot Attempt" = "Yes" := by
  have h := (shotMap_counts_only_attempts exData).1 "Box" (shotMapEntry exData "Box")
    (List.mem_map_of_mem _ (by decide : "Box" ∈ locationsList exData))
  exact ⟨h.1, h.2.2⟩

/-- C3: every ratio/average field of the result is guarded: it is exactly 0
whenever its denominator is 0 (in the `ℚ` model this is the totality of the
guarded definitions — the JS `NaN`/`undefined` outcomes cannot arise), and
whenever the denominator is positive the rate equals its defining quotient
(`successRate = goals/totalShots×100`, and likewise for the conversion
rates). -/
theorem rate_fields_zero_guard (data : List RawRecord) :
    (∀ loc e, (loc, e) ∈ (processComprehensiveData data).shotMapData →
      (e.totalShots = 0 → e.avgXG = 0 ∧ e.successRate = 0) ∧
      (0 < e.totalShots → e.successRate = (e.goals : ℚ) / (e.totalShots : ℚ) * 100)) ∧
    (∀ t e, (t, e) ∈ (processComprehensiveData data).playTypeData →
      (e.count = 0 → e.avgXG = 0)) ∧
    (∀ o e, (o, e) ∈ (processComprehensiveData data).teamComparison →
      (e.totalShots = 0 → e.conversionRate = 0 ∧ e.avgXGPerShot = 0) ∧
      (0 < e.totalShots →
        e.conversionRate = (e.totalGoals : ℚ) / (e.totalShots : ℚ) * 100)) ∧
    ((processComprehensiveData data).keyStats.totalShots = 0 →
      (processComprehensiveData data).keyStats.overallConversionRate = 0 ∧
      (processComprehensiveData data).keyStats.avgXGPerShot = 0) ∧
    (0 < (processComprehensiveData data).keyStats.totalShots →
      (processComprehensiveData data).keyStats.overallConversionRate
        = ((processComprehensiveData data).keyStats.totalGoals : ℚ)
            / ((processComprehensiveData data).keyStats.totalShots : ℚ) * 100) := by
  refine ⟨?_, ?_, ?_, ?_, ?_⟩
  · intro loc e hmem
    have he : e = shotMapEntry data loc := (mem_shotMapData.mp hmem).2
    subst he
    constructor
    · intro h0
      constructor
      · rw [shotMapEntry_avgXG, if_pos h0]
      · rw [shotMapEntry_successRate, if_neg (by rw [h0]; exact lt_irrefl 0)]
    · intro hpos
      rw [shotMapEntry_successRate, if_pos hpos]
  · intro t e hmem
    have he : e = playTypeEntry data t := (mem_playTypeData.mp hmem).2
    subst he
    intro h0
    rw [playTypeEntry_avgXG, if_pos h0]
  · intro o e hmem
    have he : e = teamEntry data o := (mem_teamComparison.mp hmem).2
    subst he
    constructor
    · intro h0
      constructor
      · rw [teamEntry_conversionRate, if_neg (by rw [h0]; exact lt_irrefl 0)]
      · rw [teamEntry_avgXGPerShot, if_neg (by rw [h0]; exact lt_irrefl 0)]
    · intro hpos
      rw [teamEntry_conversionRate, if_pos hpos]
  · intro h0
    have h0' : (keyStats data).totalShots = 0 := h0
    constructor
    · show (keyStats data).overallConversionRate = 0
      rw [keyStats_overallConversionRate, if_neg (by rw [h0']; exact lt_irrefl 0)]
    · show (keyStats data).avgXGPerShot = 0
      rw [keyStats_avgXGPerShot, if_neg (by rw [h0']; exact lt_irrefl 0)]
  · intro hpos
    have hpos' : 0 < (keyStats data).totalShots := hpos
    show (keyStats data).overallConversionRate
        = ((keyStats data).totalGoals : ℚ) / ((keyStats data).totalShots : ℚ) * 100
    rw [keyStats_overallConversionRate, if_pos hpos']

/-- C3 witness: at `noShotData` the "Box" bucket has zero shots and both of
its ratio fields are exactly 0. -/
theorem rate_fields_zero_guard_witness :
    (shotMapEntry noShotData "Box").avgXG = 0 ∧
    (shotMapEntry noShotData "Box").successRate = 0 := by
  have h := (rate_fields_zero_guard noShotData).1 "Box" (shotMapEntry noShotData "Box")
    (List.mem_map_of_mem _ (by decide : "Box" ∈ locationsList noShotData))
  exact h.1 (by decide)

/-- C4: the loader's record list is exactly the per-line build over the
non-blank lines whose comma-split value count equals the header's column
count, and its diagnostic list is exactly the non-blank lines whose value
count differs, each tagged with its (1-based) line number.  Hence a malformed
data line is skipped with a diagnostic naming it, contributes to no
`RawRecord` (so to no downstream view), and never aborts the run; `parseCSV`
is a pure function of the text, so re-running it on the same text yields the
same skip set. -/
theorem parseCSV_malformed_skipped (text : String) :
    (parseCSV text).1
        = (((jsSplit '\n' text).tail).filter (fun l =>
            !(jsTrim l == "") &&
              ((jsSplit ',' l).length == (jsSplit ',' ((jsSplit '\n' text).headD "")).length))).map
            (fun l => mkRow (jsSplit ',' ((jsSplit '\n' text).headD "")) (jsSplit ',' l)) ∧
    (parseCSV text).2
        = ((List.enumFrom 1 ((jsSplit '\n' text).tail)).filter (fun p =>
            !(jsTrim p.2 == "") &&
              !((jsSplit ',' p.2).length == (jsSplit ',' ((jsSplit '\n' text).headD "")).length))).map
            (fun p => (p.1 + 1, p.2)) :=
  parseCSVAux_eq (jsSplit ',' ((jsSplit '\n' text).headD "")) 1 ((jsSplit '\n' text).tail)

/-- C7: aggregating a header-only input (every line after the header blank or
absent) yields the fully-empty, all-zero result: all seven views present,
empty sequences and mappings, `totalGames = 0`, every count and rate 0, and
no fault (the computation is total). -/
theorem header_only_empty_result (text : String)
    (h : ∀ l ∈ (jsSplit '\n' text).tail, jsTrim l = "") :
    processComprehensiveData (parseCSV text).1
      = { goalsTimeline := [], shotMapData := [], playTypeData := [], teamComparison := [],
          keyStats := { totalGames := 0, totalGoals := 0, totalShots := 0, totalXG := 0,
                        overallConversionRate := 0, avgXGPerShot := 0 },
          games := [], opponents := [] } := by
  have hrec : (parseCSV text).1 = [] := by
    show (parseCSVAux (jsSplit ',' ((jsSplit '\n' text).headD "")) 1
      ((jsSplit '\n' text).tail)).1 = []
    rw [parseCSVAux_blank _ 1 _ h]
  rw [hrec]
  decide

/-- C7 witness at a one-line header-only text. -/
theorem header_only_empty_result_witness :
    processComprehensiveData (parseCSV "Game ID,Opponent,Date").1
      = { goalsTimeline := [], shotMapData := [], playTypeData := [], teamComparison := [],
          keyStats := { totalGames := 0, totalGoals := 0, totalShots := 0, totalXG := 0,
                        overallConversionRate := 0, avgXGPerShot := 0 },
          games := [], opponents := [] } :=
  header_only_empty_result "Game ID,Opponent,Date" (by decide)

/-- C5: a game is materialized for identifier `gid` iff some record carries
`gid` and the first such record (in source order) has non-empty Opponent,
Date and Season; the materialized game copies those three fields from that
first record and its play sequence is exactly the matching records, in source
order, coerced by `toPlay`.  (A failing game is dropped — `toGame` returns
`none` — and the rest of the pipeline proceeds: `processComprehensiveData` is
total.) -/
theorem game_materialization_rule (data : List RawRecord) (gid : String) :
    ((∃ g ∈ (processComprehensiveData data).games, g.gameId = gid) ↔
      (gid ∈ data.map (fun r => r.get "Game ID") ∧
        ∃ first, (data.filter (fun r => r.get "Game ID" == gid)).head? = some first ∧
          first.get "Opponent" ≠ "" ∧ first.get "Date" ≠ "" ∧ first.get "Season" ≠ "")) ∧
    (∀ g ∈ (processComprehensiveData data).games, g.gameId = gid →
      ∀ first, (data.filter (fun r => r.get "Game ID" == gid)).head? = some first →
        g.opponent = first.get "Opponent" ∧ g.date = first.get "Date" ∧
        g.season = first.get "Season" ∧
        g.plays = (data.filter (fun r => r.get "Game ID" == gid)).map toPlay) := by
  constructor
  · constructor
    · rintro ⟨g, hg, hid⟩
      subst hid
      rcases mem_gameData.mp hg with ⟨hmem, hsome⟩
      rcases toGame_eq_some_iff.mp hsome with ⟨first, hf, h1, h2, h3, _⟩
      exact ⟨mem_gamesList.mp hmem, first, hf, h1, h2, h3⟩
    · rintro ⟨hocc, first, hf, h1, h2, h3⟩
      refine ⟨{ gameId := gid
                opponent := first.get "Opponent"
                date := first.get "Date"
                season := first.get "Season"
                plays := (data.filter (fun r => r.get "Game ID" == gid)).map toPlay }, ?_, rfl⟩
      exact mem_gameData.mpr ⟨mem_gamesList.mpr hocc,
        toGame_eq_some_iff.mpr ⟨first, hf, h1, h2, h3, rfl⟩⟩
  · intro g hg hid first hf
    subst hid
    rcases mem_gameData.mp hg with ⟨_, hsome⟩
    rcases toGame_eq_some_iff.mp hsome with ⟨first', hf', _, _, _, hgeq⟩
    rw [hf] at hf'
    have hfe : first' = first := Option.some.inj hf'.symm
    subst hfe
    rw [hgeq]
    exact ⟨rfl, rfl, rfl, rfl⟩

/-- C5 witness: game "1" of the worked example is materialized. -/
theorem game_materialization_rule_witness :
    ∃ g ∈ (processComprehensiveData exData).games, g.gameId = "1" :=
  (game_materialization_rule exData "1").1.mpr
    ⟨by decide, exRow1, by decide, by decide, by decide, by decide⟩

/-- C9: a game with zero associated plays cannot exist anywhere in the
output: every id in the distinct-id list matches at least one record (so the
no-plays skip branch of `toGame` is unreachable), every materialized game has
a non-empty play list, every goals-timeline entry belongs to a materialized
game with a non-empty play list, and every Team Comparison `gamesPlayed`
counts only games with a non-empty play list. -/
theorem no_empty_games (data : List RawRecord) :
    (∀ gid ∈ gamesList data, data.filter (fun r => r.get "Game ID" == gid) ≠ []) ∧
    (∀ g ∈ (processComprehensiveData data).games, g.plays ≠ []) ∧
    (∀ e ∈ (processComprehensiveData data).goalsTimeline,
      ∃ g ∈ (processComprehensiveData data).games, g.gameId = e.gameId ∧ g.plays ≠ []) ∧
    (∀ o en, (o, en) ∈ (processComprehensiveData data).teamComparison →
      en.gamesPlayed = ((processComprehensiveData data).games.filter
        (fun g => g.opponent == o && !g.plays.isEmpty)).length) := by
  have h1 : ∀ gid ∈ gamesList data, data.filter (fun r => r.get "Game ID" == gid) ≠ [] := by
    intro gid hgid
    rcases List.mem_map.mp (mem_gamesList.mp hgid) with ⟨r, hr, hrid⟩
    exact List.ne_nil_of_mem (List.mem_filter.mpr ⟨hr, by simp [hrid]⟩)
  have h2 : ∀ g ∈ gameData data, g.plays ≠ [] := by
    intro g hg
    rcases mem_gameData.mp hg with ⟨hmem, hsome⟩
    rcases toGame_eq_some_iff.mp hsome with ⟨first, hf, _, _, _, hgeq⟩
    have hne : data.filter (fun r => r.get "Game ID" == g.gameId) ≠ [] := h1 _ hmem
    have hplays : g.plays = (data.filter (fun r => r.get "Game ID" == g.gameId)).map toPlay := by
      rw [hgeq]
    rw [hplays]
    exact fun hmapnil => hne (List.map_eq_nil_iff.mp hmapnil)
  refine ⟨h1, h2, ?_, ?_⟩
  · intro e he
    rcases List.mem_flatMap.mp he with ⟨game, hgm, hmem2⟩
    rcases List.mem_map.mp hmem2 with ⟨goal, _, hev⟩
    refine ⟨game, hgm, ?_, h2 game hgm⟩
    rw [← hev]
  · intro o en hmem
    have he : en = teamEntry data o := (mem_teamComparison.mp hmem).2
    subst he
    show ((gameData data).filter (fun g => g.opponent == o)).length = _
    refine congrArg List.length (List.filter_congr (fun g hg => ?_))
    have hp : g.plays ≠ [] := h2 g hg
    have hie : g.plays.isEmpty = false := by
      rw [← Bool.not_eq_true, List.isEmpty_iff]
      exact hp
    cases ho : (g.opponent == o) <;> simp [ho, hie]

/-- C9 witness: id "1" of the worked example matches at least one record. -/
theorem no_empty_games_witness :
    exData.filter (fun r => r.get "Game ID" == "1") ≠ [] :=
  (no_empty_games exData).1 "1" (by decide)

/-- C10: every distinct non-empty Opponent value of the input appears in
`opponents` and keys a Team Comparison bucket, even if all of that opponent's
games were dropped at materialization — in which case the bucket is all
zeros. -/
theorem opponents_always_bucketed (data : List RawRecord) (o : String)
    (ho : o ≠ "") (hocc : o ∈ data.map (fun r => r.get "Opponent")) :
    o ∈ (processComprehensiveData data).opponents ∧
    (o, teamEntry data o) ∈ (processComprehensiveData data).teamComparison ∧
    ((∀ g ∈ (processComprehensiveData data).games, g.opponent ≠ o) →
      teamEntry data o = ⟨0, 0, 0, 0, 0, 0⟩) := by
  have hop : o ∈ opponentsList data := mem_opponentsList.mpr ⟨hocc, ho⟩
  refine ⟨hop, List.mem_map_of_mem _ hop, ?_⟩
  intro hnone
  have hfil : (gameData data).filter (fun g => g.opponent == o) = [] :=
    List.filter_eq_nil_iff.mpr (fun g hg => by simp [hnone g hg])
  unfold teamEntry
  rw [hfil]
  simp

/-- C10 witness: opponent "B" whose only game is dropped for a missing Date
and Season still gets an all-zero bucket. -/
theorem opponents_always_bucketed_witness :
    "B" ∈ (processComprehensiveData droppedGameData).opponents ∧
    ("B", teamEntry droppedGameData "B")
        ∈ (processComprehensiveData droppedGameData).teamComparison ∧
    teamEntry droppedGameData "B" = ⟨0, 0, 0, 0, 0, 0⟩ := by
  have h := opponents_always_bucketed droppedGameData "B" (by decide) (by decide)
  exact ⟨h.1, h.2.1, h.2.2 (by decide)⟩

/-- C8: when every Game ID is a (non-empty, all-digit) numeric string, the
distinct-id list — and hence the materialized games sequence, whose id list
is a sublist of it — is sorted ascending by the NUMBER the id string denotes
(so "9" sorts before "10"), not lexicographically. -/
theorem games_sorted_numerically (data : List RawRecord)
    (hnum : ∀ s ∈ data.map (fun r => r.get "Game ID"), isDigitString s) :
    (gamesList data).Sorted (fun a b => strNumVal a ≤ strNumVal b) ∧
    ((processComprehensiveData data).games.map (fun g => g.gameId)).Sorted
      (fun a b => strNumVal a ≤ strNumVal b) := by
  have hsorted : (gamesList data).Sorted (fun a b => jsNumberD a ≤ jsNumberD b) := by
    rw [gamesList]
    exact List.sorted_insertionSort _ _
  have hmem : ∀ s ∈ gamesList data, isDigitString s :=
    fun s hs => hnum s (mem_gamesList.mp hs)
  have h1 : (gamesList data).Sorted (fun a b => strNumVal a ≤ strNumVal b) := by
    refine List.Pairwise.imp_of_mem ?_ hsorted
    intro a b ha hb hle
    rw [jsNumberD_of_digits (hmem a ha), jsNumberD_of_digits (hmem b hb)] at hle
    exact_mod_cast hle
  exact ⟨h1, h1.sublist (map_gameId_gameData_sublist data)⟩

/-- C8 witness: ids "10" and "9" are digit strings, and the theorem applies. -/
theorem games_sorted_numerically_witness :
    (gamesList twoIdsData).Sorted (fun a b => strNumVal a ≤ strNumVal b) ∧
    ((processComprehensiveData twoIdsData).games.map (fun g => g.gameId)).Sorted
      (fun a b => strNumVal a ≤ strNumVal b) :=
  games_sorted_numerically twoIdsData (by decide)

/-- C6: when every materialized game's opponent is non-empty and every goal
row is accounted in a materialized game's bucket (equivalently, its game id
is materialized — each such row then lies in exactly one opponent bucket,
since ids and opponents are duplicate-free), the per-opponent `totalGoals` of
Team Comparison sum to Key Statistics' `totalGoals`. -/
theorem team_goals_sum_matches_keyStats (data : List RawRecord)
    (hopp : ∀ g ∈ (processComprehensiveData data).games, g.opponent ≠ "")
    (hacc : ∀ r ∈ data, r.get "Shot Outcome" = "Goal" →
      ∃ g ∈ (processComprehensiveData data).games, g.gameId = r.get "Game ID") :
    ((processComprehensiveData data).teamComparison.map (fun p => p.2.totalGoals)).sum
      = (processComprehensiveData data).keyStats.totalGoals := by
  show ((teamComparison data).map (fun p => p.2.totalGoals)).sum = (keyStats data).totalGoals
  have hstep1 : ((teamComparison data).map (fun p => p.2.totalGoals)).sum
      = ((opponentsList data).map (fun o =>
          (((gameData data).filter (fun g => g.opponent == o)).map goalsOfGame).sum)).sum := by
    rw [teamComparison, List.map_map]
    refine congrArg List.sum (List.map_congr_left (fun o _ => ?_))
    show (teamEntry data o).totalGoals = _
    have : (teamEntry data o).totalGoals
        = ((((gameData data).filter (fun g => g.opponent == o)).flatMap
            (fun g => g.plays)).filter (fun p => p.shotOutcome == "Goal")).length := rfl
    rw [this, length_filter_flatMap]
    rfl
  have hstep2 : ((opponentsList data).map (fun o =>
      (((gameData data).filter (fun g => g.opponent == o)).map goalsOfGame).sum)).sum
      = ((gameData data).map goalsOfGame).sum :=
    sum_map_filter_key (fun g => g.opponent) goalsOfGame (opponentsList data) (gameData data)
      nodup_opponentsList (fun g hg => opponent_mem_opponentsList hg)
  have hstep3 : ((gameData data).map goalsOfGame).sum
      = ((gameData data).map (fun g =>
          ((data.filter (fun r => r.get "Shot Outcome" == "Goal")).filter
            (fun r => r.get "Game ID" == g.gameId)).length)).sum :=
    congrArg List.sum (List.map_congr_left (fun g hg => goalsOfGame_eq_rowCount hg))
  have hall : ∀ r ∈ data.filter (fun r => r.get "Shot Outcome" == "Goal"),
      r.get "Game ID" ∈ (gameData data).map (fun g => g.gameId) := by
    intro r hr
    rcases List.mem_filter.mp hr with ⟨hrd, hout⟩
    rcases hacc r hrd (eq_of_beq hout) with ⟨g, hgm, hgid⟩
    rw [← hgid]
    exact List.mem_map_of_mem _ hgm
  have hstep5 := length_filter_key (fun r => r.get "Game ID")
      ((gameData data).map (fun g => g.gameId))
      (data.filter (fun r => r.get "Shot Outcome" == "Goal"))
      (nodup_map_gameId_gameData data) hall
  rw [hstep1, hstep2, hstep3]
  show _ = (data.filter (fun r => r.get "Shot Outcome" == "Goal")).length
  rw [← hstep5, List.map_map]
  rfl

/-- C6 witness at the worked example: one opponent bucket, one goal. -/
theorem team_goals_sum_witness :
    ((processComprehensiveData exData).teamComparison.map (fun p => p.2.totalGoals)).sum
      = (processComprehensiveData exData).keyStats.totalGoals :=
  team_goals_sum_matches_keyStats exData (by decide) (by decide)
